import Mathlib

/-!
Verification development for the github1s virtual filesystem provider
(`src/extensions/github1s/src/github1sfs.ts`).

The provider is shallowly embedded as pure Lean functions:

* the node model (`File` / `Directory`, here the two constructors of `Entry`);
* the mutually recursive operations `_lookup`, `_lookupAsDirectory`,
  `readDirectory` (and, on top of them, `_lookupAsFile` and `readFile`);
* the GraphQL bulk-response conversion `entriesToMap`;
* the `reuseable` request deduplicator (modelled from the spec, its source
  `util.ts` is not part of the sources under verification).

Modelling conventions:

* JavaScript `null`/`undefined` fields become `Option`; a `Uint8Array` becomes
  `List Nat` (one `Nat` per byte); a JavaScript insertion-ordered `Map` becomes
  an association list `List (String × _)` together with `mapSet`, which mirrors
  `Map.prototype.set` (overwrite in place, append for a fresh key).
* The remote collaborators (`apolloClient.query`, `readGitHubDirectory`,
  `readGitHubFile`) are an oracle `Remote`; a rejected promise is
  `Except.error ()`.  URIs are reduced to their path component, represented as
  the list of `/`-separated non-empty segments (the authority and owner /
  repo / branch coordinates are opaque to the provider's logic and are fixed
  by the oracle).  `Uri.joinPath (entry.uri) (entry.name)` then equals the
  traversal position of `entry`, which the walk tracks explicitly.
* The source mutates nodes through object references; here the tree inside
  `FSState` is the single source of truth, and a node is (re)read at its
  traversal position, which denotes the same object by the source's aliasing
  discipline (every node is the unique object at its position, and
  `readDirectory` mutates only the node at its argument position).
* The mutually recursive operations are defined with an explicit `fuel`
  argument so that they are structurally recursive and computable; `fuel`
  only has to exceed the recursion depth (about four times the path length),
  and every theorem below quantifies over all sufficient fuel.
* `Date.now()` timestamps (`ctime` / `mtime`) and the constant
  `Directory.size = 0` are omitted: no operation of the provider reads them.
* `dirFetchCount` / `fileFetchCount` are ghost instrumentation counting the
  oracle invocations (one per remote directory fetch resp. per remote file
  content fetch); they let the cache-idempotence claims be stated exactly.
-/

set_option maxHeartbeats 1000000

namespace Github1s

/-- The subset of `vscode.FileType` used by the provider. -/
inductive FileType where
  | file
  | directory
deriving DecidableEq, Repr

/-- The `vscode.FileSystemError` variants thrown by the provider, together
with `remote` (a rejected promise propagated from a remote collaborator) and
`outOfFuel`, an artifact of the fuel-based embedding that is never returned
once the fuel exceeds the recursion depth. -/
inductive FsError where
  | fileNotFound
  | fileNotADirectory
  | fileIsADirectory
  | remote
  | outOfFuel
deriving DecidableEq, Repr

/-- The node model of `github1sfs.ts`: class `File` (name, sha, size, and an
optional data buffer, `none` meaning the JavaScript `null` "not yet fetched")
and class `Directory` (name, sha, and an optional insertion-ordered children
map, `none` meaning the JavaScript `null` "not yet populated").  `File.size`
is `Option Nat` because the source can store `undefined` there (a shallow
tree item without a size, or a GraphQL child without an inlined object). -/
inductive Entry where
  | file (name sha : String) (size : Option Nat) (data : Option (List Nat))
  | dir (name sha : String) (entries : Option (List (String × Entry)))

/-- Name of a node (`this.name` of `File` / `Directory`). -/
def Entry.name : Entry → String
  | .file n _ _ _ => n
  | .dir n _ _ => n

/-- The `item instanceof Directory ? FileType.Directory : FileType.File`
projection used by `getNameTypePairs`. -/
def Entry.fileType : Entry → FileType
  | .file _ _ _ _ => FileType.file
  | .dir _ _ _ => FileType.directory

/-- JavaScript `Map.prototype.set` on an insertion-ordered association list:
an existing key keeps its position and gets the new value, a fresh key is
appended at the end. -/
def mapSet (m : List (String × Entry)) (k : String) (v : Entry) :
    List (String × Entry) :=
  if m.any (fun p => p.1 = k) then
    m.map (fun p => if p.1 = k then (k, v) else p)
  else
    m ++ [(k, v)]

/-- Directory.getNameTypePairs: `Array.from(this.entries?.values() || [])`
mapped to `(item.name, item instanceof Directory ? Directory : File)`. -/
def getNameTypePairs (entries : Option (List (String × Entry))) :
    List (String × FileType) :=
  (entries.getD []).map (fun p => (p.2.name, p.2.fileType))

/-- TextEncoder().encode: `textEncode none` models `encode(undefined)`, which
by the WebIDL optional-argument default encodes the empty string. -/
def textEncode : Option String → List Nat
  | none => []
  | some s => s.toUTF8.toList.map (fun b => b.toNat)

/-- One entry of a GraphQL bulk response (`response.data.repository.object
.entries`), as read by `entriesToMap`: `item.name`, `item.oid`, `item.type`,
and the fields reached through the optional chain `item.object?.…`
(`entries` for trees; `byteSize`, `isBinary`, `text` for blobs).  An absent
`object` and an `object` with the field absent are observationally identical
through `?.`, so both are `none` here. -/
inductive GqlEntry where
  | mk (name oid type : String)
      (objectEntries : Option (List GqlEntry))
      (objectByteSize : Option Nat)
      (objectIsBinary : Option Bool)
      (objectText : Option String)

/-- item.name of a GraphQL entry. -/
def GqlEntry.gname : GqlEntry → String
  | .mk n _ _ _ _ _ _ => n

mutual

/-- One step of `entriesToMap`'s forEach body: builds the `Directory` (with
`entries` recursively converted from `item.object?.entries`, so nested
children arrive already populated) or the `File` (with `data` left `null`
when the blob is flagged binary, otherwise the encoded inlined text). -/
def gqlEntryToEntry : GqlEntry → List String → Entry
  | .mk name oid type objEntries objByteSize objIsBinary objText, uri =>
    if type = "tree" then
      Entry.dir name oid (entriesToMap objEntries (uri ++ [name]))
    else
      Entry.file name oid objByteSize
        (if objIsBinary = some true then none else some (textEncode objText))

/-- entriesToMap (github1sfs.ts, GraphQL output only): `null` entries give a
`null` map; otherwise every item is inserted with `map.set(item.name, entry)`
in order. -/
def entriesToMap : Option (List GqlEntry) → List String →
    Option (List (String × Entry))
  | none, _ => none
  | some es, uri => some (gqlForEach es uri [])

/-- The forEach loop of `entriesToMap`, accumulating the map built so far. -/
def gqlForEach : List GqlEntry → List String → List (String × Entry) →
    List (String × Entry)
  | [], _, acc => acc
  | item :: rest, uri, acc =>
    gqlForEach rest uri (mapSet acc item.gname (gqlEntryToEntry item uri))

end

/-- One item of a shallow (REST) directory listing, as read by
`readDirectory`'s `readGitHubDirectory(state).then(data => … data.tree …)`
branch: `item.path`, `item.type`, `item.sha`, `item.size` (`size` can be
absent on tree items). -/
structure TreeItem where
  path : String
  type : String
  sha : String
  size : Option Nat

/-- The `File` node a shallow listing creates:
`new File(uri, item.path, { sha: item.sha, size: item.size })` (its `data`
key is absent, so the constructor leaves `data = null`), or the `Directory`
node `new Directory(uri, item.path, { sha: item.sha })` (entries start
`null`). -/
def shallowEntry (item : TreeItem) : Entry :=
  if item.type = "tree" then
    Entry.dir item.path item.sha none
  else
    Entry.file item.path item.sha item.size none

/-- The remote collaborators, specified at their interface boundary.  A
`Except.error ()` is a rejected promise (transport / query failure).

* `deepQuery p` models `apolloClient.query` with the expression built from
  path `p`; `Except.ok none` models a response whose
  `data?.repository?.object?.entries` is absent (not found / not a
  directory), `Except.ok (some es)` a response with an entries array
  (possibly empty — an empty array passes the source's `!entries` check).
* `shallowDir p` models `readGitHubDirectory(state)`, yielding `data.tree`.
* `fileBlob p sha` models `readGitHubFile(state, sha)` composed with the
  external base64 decoder `decodeBase64(blob.content)`, yielding the decoded
  bytes.
* `graphqlEnabled` is the `isGraphQLEnabled()` feature flag, read at each
  population. -/
structure Remote where
  graphqlEnabled : Bool
  deepQuery : List String → Except Unit (Option (List GqlEntry))
  shallowDir : List String → Except Unit (List TreeItem)
  fileBlob : List String → String → Except Unit (List Nat)

/-- The mutable state of a `GitHub1sFS` instance: `this.root` (`none` until
the first `_lookup` creates it) plus ghost counters of the remote directory
fetches and remote file-content fetches performed so far. -/
structure FSState where
  root : Option Entry
  dirFetchCount : Nat
  fileFetchCount : Nat

/-- Follow the `/`-separated segments of a path from a node, one `Map.get`
per segment: the specification-side resolution function ("the node reached
by following each segment exactly once"). -/
def nodeAtEntry : Entry → List String → Option Entry
  | e, [] => some e
  | Entry.dir _ _ (some es), part :: rest =>
    match List.lookup part es with
    | some c => nodeAtEntry c rest
    | none => none
  | _, _ :: _ => none

/-- The node currently stored at a traversal position of the state's tree. -/
def nodeAt (st : FSState) (p : List String) : Option Entry :=
  match st.root with
  | none => none
  | some r => nodeAtEntry r p

/-- Replace the `entries` field of the `Directory` at a position (the
mutation `parent.entries = …` of `readDirectory`, seen from the root). -/
def setEntriesNode : Entry → List String → Option (List (String × Entry)) →
    Entry
  | Entry.dir n s _, [], m => Entry.dir n s m
  | e, [], _ => e
  | Entry.dir n s (some es), part :: rest, m =>
    Entry.dir n s
      (some (es.map (fun q =>
        if q.1 = part then (q.1, setEntriesNode q.2 rest m) else q)))
  | e, _ :: _, _ => e

/-- Lift `setEntriesNode` to the optional root. -/
def setEntriesAt (root : Option Entry) (p : List String)
    (m : Option (List (String × Entry))) : Option Entry :=
  root.map (fun r => setEntriesNode r p m)

/-- Replace the `data` field of the `File` at a position (the mutation
`file.data = …` of `readFile`, seen from the root). -/
def setDataNode : Entry → List String → Option (List Nat) → Entry
  | Entry.file n s sz _, [], d => Entry.file n s sz d
  | e, [], _ => e
  | Entry.dir n s (some es), part :: rest, d =>
    Entry.dir n s
      (some (es.map (fun q =>
        if q.1 = part then (q.1, setDataNode q.2 rest d) else q)))
  | e, _ :: _, _ => e

/-- Lift `setDataNode` to the optional root. -/
def setDataAt (root : Option Entry) (p : List String) (d : Option (List Nat)) :
    Option Entry :=
  root.map (fun r => setDataNode r p d)

mutual

/-- The `for (const part of parts)` loop of `GitHub1sFS._lookup`, carrying
the traversal position `pre` (so that `Uri.joinPath(entry.uri, entry.name)`,
the argument of the population call, is exactly `pre`).  If the current
entry is an unpopulated `Directory`, populate it through `readDirectory`
(errors propagate); then `child = entry.entries.get(part)` — `undefined`
when the entry is not a `Directory` — and a missing child throws
`FileNotFound` (or returns the `undefined` sentinel when `silent`). -/
def lookupGo (R : Remote) : Nat → FSState → List String → List String →
    Bool → Except FsError (Option Entry) × FSState
  | 0, st, _, _, _ => (Except.error FsError.outOfFuel, st)
  | _ + 1, st, pre, [], _ => (Except.ok (nodeAt st pre), st)
  | fuel + 1, st, pre, part :: rest, silent =>
    let popped : Except FsError Unit × FSState :=
      match nodeAt st pre with
      | some (Entry.dir _ _ none) =>
        match readDirectory R fuel st pre with
        | (Except.error e, st') => (Except.error e, st')
        | (Except.ok _, st') => (Except.ok (), st')
      | _ => (Except.ok (), st)
    match popped with
    | (Except.error e, st') => (Except.error e, st')
    | (Except.ok _, st') =>
      match nodeAt st' pre with
      | some (Entry.dir _ _ (some es)) =>
        match List.lookup part es with
        | some _ => lookupGo R fuel st' (pre ++ [part]) rest silent
        | none =>
          if silent then (Except.ok none, st')
          else (Except.error FsError.fileNotFound, st')
      | _ =>
        if silent then (Except.ok none, st')
        else (Except.error FsError.fileNotFound, st')

/-- GitHub1sFS._lookup: create the root `Directory` on first use (name `''`,
`entries` null), then walk the path segments.  `Except.ok none` is the
`undefined` sentinel returned in silent mode. -/
def lookup (R : Remote) : Nat → FSState → List String → Bool →
    Except FsError (Option Entry) × FSState
  | 0, st, _, _ => (Except.error FsError.outOfFuel, st)
  | fuel + 1, st, path, silent =>
    let st1 : FSState :=
      match st.root with
      | none => { st with root := some (Entry.dir "" "" none) }
      | some _ => st
    lookupGo R fuel st1 [] path silent

/-- GitHub1sFS._lookupAsDirectory: return the entry iff it is a `Directory`;
otherwise throw `FileNotADirectory` when not silent, and fall through to the
implicit `undefined` return when silent. -/
def lookupAsDirectory (R : Remote) : Nat → FSState → List String → Bool →
    Except FsError (Option Entry) × FSState
  | 0, st, _, _ => (Except.error FsError.outOfFuel, st)
  | fuel + 1, st, path, silent =>
    match lookup R fuel st path silent with
    | (Except.error e, st') => (Except.error e, st')
    | (Except.ok (some (Entry.dir n s es)), st') =>
      (Except.ok (some (Entry.dir n s es)), st')
    | (Except.ok _, st') =>
      if silent then (Except.ok none, st')
      else (Except.error FsError.fileNotADirectory, st')

/-- GitHub1sFS.readDirectory (the function wrapped by `reuseable`; the
deduplicator is modelled separately, and is the identity for the sequential
executions considered here).  Resolve the target as a directory (never
silent); if its `entries` are already present return `getNameTypePairs`
with no remote call; otherwise populate through the strategy selected by
`isGraphQLEnabled()`:

* deep: one `apolloClient.query`; absent response entries throw
  `FileNotADirectory`, otherwise `parent.entries = entriesToMap(entries,
  uri)` and the pairs are returned;
* shallow: one `readGitHubDirectory`; on success `parent.entries` is filled
  from `data.tree` and the mapped `[item.path, fileType]` pairs are
  returned.

The `!uri.authority` guard is outside this model (URIs are reduced to their
path).  The two `unreachable` arms are dead code: with `silent = false` the
resolution only ever produces an error or a `Directory`. -/
def readDirectory (R : Remote) : Nat → FSState → List String →
    Except FsError (List (String × FileType)) × FSState
  | 0, st, _ => (Except.error FsError.outOfFuel, st)
  | fuel + 1, st, uri =>
    match lookupAsDirectory R fuel st uri false with
    | (Except.error e, st') => (Except.error e, st')
    | (Except.ok none, st') => (Except.error FsError.fileNotADirectory, st')
    | (Except.ok (some (Entry.file _ _ _ _)), st') =>
      (Except.error FsError.fileNotADirectory, st')
    | (Except.ok (some (Entry.dir _ _ (some es))), st') =>
      (Except.ok (getNameTypePairs (some es)), st')
    | (Except.ok (some (Entry.dir _ _ none)), st') =>
      if R.graphqlEnabled then
        let st2 := { st' with dirFetchCount := st'.dirFetchCount + 1 }
        match R.deepQuery uri with
        | Except.error _ => (Except.error FsError.remote, st2)
        | Except.ok none => (Except.error FsError.fileNotADirectory, st2)
        | Except.ok (some ges) =>
          let m := entriesToMap (some ges) uri
          (Except.ok (getNameTypePairs m),
            { st2 with root := setEntriesAt st2.root uri m })
      else
        let st2 := { st' with dirFetchCount := st'.dirFetchCount + 1 }
        match R.shallowDir uri with
        | Except.error _ => (Except.error FsError.remote, st2)
        | Except.ok data =>
          let m := data.foldl
            (fun acc item => mapSet acc item.path (shallowEntry item)) []
          (Except.ok (data.map (fun item =>
              (item.path,
                if item.type = "tree" then FileType.directory
                else FileType.file))),
            { st2 with root := setEntriesAt st2.root uri (some m) })

end

/-- GitHub1sFS._lookupAsFile: return the entry iff it is a `File`; otherwise
throw `FileIsADirectory` when not silent, and fall through to the implicit
`undefined` return when silent. -/
def lookupAsFile (R : Remote) : Nat → FSState → List String → Bool →
    Except FsError (Option Entry) × FSState
  | 0, st, _, _ => (Except.error FsError.outOfFuel, st)
  | fuel + 1, st, path, silent =>
    match lookup R fuel st path silent with
    | (Except.error e, st') => (Except.error e, st')
    | (Except.ok (some (Entry.file n s sz d)), st') =>
      (Except.ok (some (Entry.file n s sz d)), st')
    | (Except.ok _, st') =>
      if silent then (Except.ok none, st')
      else (Except.error FsError.fileIsADirectory, st')

/-- GitHub1sFS.readFile (the function wrapped by `reuseable`): resolve the
target as a `File` (never silent); if `file.data !== null` return it with no
remote call; otherwise one `readGitHubFile` fetch, whose decoded result is
stored on the node (`file.data = decodeBase64(blob.content)`) and returned.
The two `unreachable` arms are dead code as in `readDirectory`. -/
def readFile (R : Remote) : Nat → FSState → List String →
    Except FsError (List Nat) × FSState
  | 0, st, _ => (Except.error FsError.outOfFuel, st)
  | fuel + 1, st, uri =>
    match lookupAsFile R fuel st uri false with
    | (Except.error e, st') => (Except.error e, st')
    | (Except.ok none, st') => (Except.error FsError.fileIsADirectory, st')
    | (Except.ok (some (Entry.dir _ _ _)), st') =>
      (Except.error FsError.fileIsADirectory, st')
    | (Except.ok (some (Entry.file _ sha _ dataOpt)), st') =>
      match dataOpt with
      | some d => (Except.ok d, st')
      | none =>
        let st2 := { st' with fileFetchCount := st'.fileFetchCount + 1 }
        match R.fileBlob uri sha with
        | Except.error _ => (Except.error FsError.remote, st2)
        | Except.ok bytes =>
          (Except.ok bytes,
            { st2 with root := setDataAt st2.root uri (some bytes) })

/-- JavaScript `String.prototype.split('/')` over the character list: cut at
every `'/'`, keeping empty pieces (splitting the empty string yields one
empty piece). -/
def splitSlash : List Char → List Char → List String
  | [], acc => [String.mk acc.reverse]
  | c :: cs, acc =>
    if c = '/' then String.mk acc.reverse :: splitSlash cs []
    else splitSlash cs (c :: acc)

/-- The split `state.path.split('/').filter(Boolean)` of `_lookup`, on the
string form of a path: the non-empty `/`-separated segments. -/
def pathSegments (s : String) : List String :=
  (splitSlash s.data []).filter (fun t => ¬ t = "")

/-- GitHub1sFS._lookup taking the path in its string form (the shape in
which `parseUri` delivers it). -/
def lookupPath (R : Remote) (fuel : Nat) (st : FSState) (path : String)
    (silent : Bool) : Except FsError (Option Entry) × FSState :=
  lookup R fuel st (pathSegments path) silent

theorem nodeAtEntry_append (p q : List String) (e : Entry) :
    nodeAtEntry e (p ++ q) = (nodeAtEntry e p).bind (fun x => nodeAtEntry x q) := by
  induction p generalizing e with
  | nil => simp [nodeAtEntry]
  | cons part rest ih =>
    cases e with
    | file n s sz d => simp [nodeAtEntry]
    | dir n s es =>
      cases es with
      | none => simp [nodeAtEntry]
      | some l =>
        simp only [List.cons_append, nodeAtEntry]
        cases h : List.lookup part l with
        | none => simp
        | some c => simp [ih]

theorem nodeAtEntry_cons_eq_some {e : Entry} {part : String} {rest : List String}
    {x : Entry} (h : nodeAtEntry e (part :: rest) = some x) :
    ∃ n s es c, e = Entry.dir n s (some es) ∧ List.lookup part es = some c ∧
      nodeAtEntry c rest = some x := by
  cases e with
  | file n s sz d => simp [nodeAtEntry] at h
  | dir n s es =>
    cases es with
    | none => simp [nodeAtEntry] at h
    | some l =>
      cases hl : List.lookup part l with
      | none => simp [nodeAtEntry, hl] at h
      | some c => exact ⟨n, s, l, c, rfl, hl, by simpa [nodeAtEntry, hl] using h⟩

theorem nodeAt_append (st : FSState) (p q : List String) :
    nodeAt st (p ++ q) = (nodeAt st p).bind (fun x => nodeAtEntry x q) := by
  cases h : st.root with
  | none => simp [nodeAt, h]
  | some r => simp [nodeAt, h, nodeAtEntry_append]

theorem lookupGo_through (R : Remote) (st : FSState) (pre : List String) :
    ∀ (base rem : List String) (silent : Bool) (g : Nat) (e : Entry),
      nodeAt st (base ++ pre) = some e →
      lookupGo R (g + pre.length) st base (pre ++ rem) silent =
        lookupGo R g st (base ++ pre) rem silent := by
  induction pre with
  | nil => intro base rem silent g e h; simp
  | cons part pre' ih =>
    intro base rem silent g e h
    rw [nodeAt_append] at h
    obtain ⟨mid, hmid, hrest⟩ := Option.bind_eq_some.mp h
    obtain ⟨n, s, es, c, rfl, hl, hc⟩ := nodeAtEntry_cons_eq_some hrest
    show lookupGo R ((g + pre'.length) + 1) st base (part :: (pre' ++ rem)) silent = _
    rw [lookupGo]
    simp only [hmid, hl]
    have h' : nodeAt st ((base ++ [part]) ++ pre') = some e := by
      have : (base ++ [part]) ++ pre' = base ++ part :: pre' := by simp
      rw [this, nodeAt_append, hmid]
      simpa [nodeAtEntry, hl] using hc
    rw [ih (base ++ [part]) rem silent g e h']
    have : (base ++ [part]) ++ pre' = base ++ part :: pre' := by simp
    rw [this]

theorem lookup_populated (R : Remote) (st : FSState) (r e : Entry)
    (p : List String) (silent : Bool) (g : Nat)
    (hroot : st.root = some r) (h : nodeAtEntry r p = some e) :
    lookup R (g + 1 + p.length + 1) st p silent = (Except.ok (some e), st) := by
  rw [lookup]
  simp only [hroot]
  have hat : nodeAt st ([] ++ p) = some e := by simp [nodeAt, hroot, h]
  have hthr := lookupGo_through R st p [] [] silent (g + 1) e hat
  simp only [List.append_nil, List.nil_append] at hthr
  rw [hthr, lookupGo]
  simp [nodeAt, hroot, h]

theorem lookup_missing (R : Remote) (st : FSState) (r : Entry)
    (pre : List String) (n s : String) (es : List (String × Entry))
    (part : String) (rest : List String) (silent : Bool) (g : Nat)
    (hroot : st.root = some r) (h : nodeAtEntry r pre = some (Entry.dir n s (some es)))
    (hl : List.lookup part es = none) :
    lookup R (g + 1 + pre.length + 1) st (pre ++ part :: rest) silent =
      ((if silent then Except.ok none else Except.error FsError.fileNotFound), st) := by
  rw [lookup]
  simp only [hroot]
  have hat : nodeAt st ([] ++ pre) = some (Entry.dir n s (some es)) := by
    simp [nodeAt, hroot, h]
  have hthr := lookupGo_through R st pre [] (part :: rest) silent (g + 1) _ hat
  simp only [List.nil_append] at hthr
  rw [hthr, lookupGo]
  have hat2 : nodeAt st pre = some (Entry.dir n s (some es)) := by simp [nodeAt, hroot, h]
  simp only [hat2, hl]
  cases silent <;> rfl

theorem lookup_file_mid (R : Remote) (st : FSState) (r : Entry)
    (pre : List String) (nm sh : String) (sz : Option Nat) (dt : Option (List Nat))
    (part : String) (rest : List String) (silent : Bool) (g : Nat)
    (hroot : st.root = some r) (h : nodeAtEntry r pre = some (Entry.file nm sh sz dt)) :
    lookup R (g + 1 + pre.length + 1) st (pre ++ part :: rest) silent =
      ((if silent then Except.ok none else Except.error FsError.fileNotFound), st) := by
  rw [lookup]
  simp only [hroot]
  have hat : nodeAt st ([] ++ pre) = some (Entry.file nm sh sz dt) := by
    simp [nodeAt, hroot, h]
  have hthr := lookupGo_through R st pre [] (part :: rest) silent (g + 1) _ hat
  simp only [List.nil_append] at hthr
  rw [hthr, lookupGo]
  have hat2 : nodeAt st pre = some (Entry.file nm sh sz dt) := by simp [nodeAt, hroot, h]
  simp only [hat2]
  cases silent <;> rfl

theorem lookupAsDirectory_dir (R : Remote) (st : FSState) (r : Entry)
    (p : List String) (n s : String) (q : Option (List (String × Entry)))
    (silent : Bool) (g : Nat)
    (hroot : st.root = some r) (h : nodeAtEntry r p = some (Entry.dir n s q)) :
    lookupAsDirectory R (g + 1 + p.length + 1 + 1) st p silent =
      (Except.ok (some (Entry.dir n s q)), st) := by
  rw [lookupAsDirectory, lookup_populated R st r (Entry.dir n s q) p silent g hroot h]

theorem lookupAsDirectory_silent_file (R : Remote) (st : FSState) (r : Entry)
    (p : List String) (nm sh : String) (sz : Option Nat) (dt : Option (List Nat))
    (g : Nat)
    (hroot : st.root = some r) (h : nodeAtEntry r p = some (Entry.file nm sh sz dt)) :
    lookupAsDirectory R (g + 1 + p.length + 1 + 1) st p true = (Except.ok none, st) := by
  rw [lookupAsDirectory, lookup_populated R st r (Entry.file nm sh sz dt) p true g hroot h]
  simp

theorem lookupAsDirectory_silent_missing (R : Remote) (st : FSState) (r : Entry)
    (pre : List String) (n s : String) (es : List (String × Entry))
    (part : String) (rest : List String) (g : Nat)
    (hroot : st.root = some r) (h : nodeAtEntry r pre = some (Entry.dir n s (some es)))
    (hl : List.lookup part es = none) :
    lookupAsDirectory R (g + 1 + pre.length + 1 + 1) st (pre ++ part :: rest) true =
      (Except.ok none, st) := by
  rw [lookupAsDirectory, lookup_missing R st r pre n s es part rest true g hroot h hl]
  simp

theorem lookupAsFile_file (R : Remote) (st : FSState) (r : Entry)
    (p : List String) (nm sh : String) (sz : Option Nat) (dt : Option (List Nat))
    (silent : Bool) (g : Nat)
    (hroot : st.root = some r) (h : nodeAtEntry r p = some (Entry.file nm sh sz dt)) :
    lookupAsFile R (g + 1 + p.length + 1 + 1) st p silent =
      (Except.ok (some (Entry.file nm sh sz dt)), st) := by
  rw [lookupAsFile, lookup_populated R st r (Entry.file nm sh sz dt) p silent g hroot h]

theorem lookupAsFile_silent_dir (R : Remote) (st : FSState) (r : Entry)
    (p : List String) (n s : String) (q : Option (List (String × Entry))) (g : Nat)
    (hroot : st.root = some r) (h : nodeAtEntry r p = some (Entry.dir n s q)) :
    lookupAsFile R (g + 1 + p.length + 1 + 1) st p true = (Except.ok none, st) := by
  rw [lookupAsFile, lookup_populated R st r (Entry.dir n s q) p true g hroot h]
  simp

theorem lookupAsFile_silent_missing (R : Remote) (st : FSState) (r : Entry)
    (pre : List String) (n s : String) (es : List (String × Entry))
    (part : String) (rest : List String) (g : Nat)
    (hroot : st.root = some r) (h : nodeAtEntry r pre = some (Entry.dir n s (some es)))
    (hl : List.lookup part es = none) :
    lookupAsFile R (g + 1 + pre.length + 1 + 1) st (pre ++ part :: rest) true =
      (Except.ok none, st) := by
  rw [lookupAsFile, lookup_missing R st r pre n s es part rest true g hroot h hl]
  simp

theorem readDirectory_cached (R : Remote) (st : FSState) (r : Entry)
    (p : List String) (n s : String) (es : List (String × Entry)) (g : Nat)
    (hroot : st.root = some r) (h : nodeAtEntry r p = some (Entry.dir n s (some es))) :
    readDirectory R (g + 1 + p.length + 1 + 1 + 1) st p =
      (Except.ok (getNameTypePairs (some es)), st) := by
  rw [readDirectory, lookupAsDirectory_dir R st r p n s (some es) false g hroot h]

theorem readDirectory_deep_ok (R : Remote) (st : FSState) (r : Entry)
    (p : List String) (n s : String) (ges : List GqlEntry) (g : Nat)
    (hroot : st.root = some r) (h : nodeAtEntry r p = some (Entry.dir n s none))
    (hgql : R.graphqlEnabled = true) (hq : R.deepQuery p = Except.ok (some ges)) :
    readDirectory R (g + 1 + p.length + 1 + 1 + 1) st p =
      (Except.ok (getNameTypePairs (entriesToMap (some ges) p)),
        { st with root := setEntriesAt st.root p (entriesToMap (some ges) p),
                  dirFetchCount := st.dirFetchCount + 1 }) := by
  rw [readDirectory, lookupAsDirectory_dir R st r p n s none false g hroot h]
  simp only [hgql, hq]
  rfl

theorem readDirectory_deep_err (R : Remote) (st : FSState) (r : Entry)
    (p : List String) (n s : String) (g : Nat)
    (hroot : st.root = some r) (h : nodeAtEntry r p = some (Entry.dir n s none))
    (hgql : R.graphqlEnabled = true) (hq : R.deepQuery p = Except.error ()) :
    readDirectory R (g + 1 + p.length + 1 + 1 + 1) st p =
      (Except.error FsError.remote,
        { st with dirFetchCount := st.dirFetchCount + 1 }) := by
  rw [readDirectory, lookupAsDirectory_dir R st r p n s none false g hroot h]
  simp only [hgql, hq]
  simp

theorem readDirectory_deep_none (R : Remote) (st : FSState) (r : Entry)
    (p : List String) (n s : String) (g : Nat)
    (hroot : st.root = some r) (h : nodeAtEntry r p = some (Entry.dir n s none))
    (hgql : R.graphqlEnabled = true) (hq : R.deepQuery p = Except.ok none) :
    readDirectory R (g + 1 + p.length + 1 + 1 + 1) st p =
      (Except.error FsError.fileNotADirectory,
        { st with dirFetchCount := st.dirFetchCount + 1 }) := by
  rw [readDirectory, lookupAsDirectory_dir R st r p n s none false g hroot h]
  simp only [hgql, hq]
  simp

theorem readDirectory_shallow_ok (R : Remote) (st : FSState) (r : Entry)
    (p : List String) (n s : String) (data : List TreeItem) (g : Nat)
    (hroot : st.root = some r) (h : nodeAtEntry r p = some (Entry.dir n s none))
    (hgql : R.graphqlEnabled = false) (hq : R.shallowDir p = Except.ok data) :
    readDirectory R (g + 1 + p.length + 1 + 1 + 1) st p =
      (Except.ok (data.map (fun item =>
          (item.path,
            if item.type = "tree" then FileType.directory else FileType.file))),
        { st with
            root := setEntriesAt st.root p
              (some (data.foldl
                (fun acc item => mapSet acc item.path (shallowEntry item)) [])),
            dirFetchCount := st.dirFetchCount + 1 }) := by
  rw [readDirectory, lookupAsDirectory_dir R st r p n s none false g hroot h]
  simp only [hgql, hq]
  rfl

theorem readDirectory_shallow_err (R : Remote) (st : FSState) (r : Entry)
    (p : List String) (n s : String) (g : Nat)
    (hroot : st.root = some r) (h : nodeAtEntry r p = some (Entry.dir n s none))
    (hgql : R.graphqlEnabled = false) (hq : R.shallowDir p = Except.error ()) :
    readDirectory R (g + 1 + p.length + 1 + 1 + 1) st p =
      (Except.error FsError.remote,
        { st with dirFetchCount := st.dirFetchCount + 1 }) := by
  rw [readDirectory, lookupAsDirectory_dir R st r p n s none false g hroot h]
  simp only [hgql, hq]
  simp

theorem readFile_cached (R : Remote) (st : FSState) (r : Entry)
    (p : List String) (nm sh : String) (sz : Option Nat) (d : List Nat) (g : Nat)
    (hroot : st.root = some r) (h : nodeAtEntry r p = some (Entry.file nm sh sz (some d))) :
    readFile R (g + 1 + p.length + 1 + 1 + 1) st p = (Except.ok d, st) := by
  rw [readFile, lookupAsFile_file R st r p nm sh sz (some d) false g hroot h]

theorem readFile_fetch_ok (R : Remote) (st : FSState) (r : Entry)
    (p : List String) (nm sh : String) (sz : Option Nat) (bytes : List Nat) (g : Nat)
    (hroot : st.root = some r) (h : nodeAtEntry r p = some (Entry.file nm sh sz none))
    (hq : R.fileBlob p sh = Except.ok bytes) :
    readFile R (g + 1 + p.length + 1 + 1 + 1) st p =
      (Except.ok bytes,
        { st with root := setDataAt st.root p (some bytes),
                  fileFetchCount := st.fileFetchCount + 1 }) := by
  rw [readFile, lookupAsFile_file R st r p nm sh sz none false g hroot h]
  simp only [hq]

theorem readFile_fetch_err (R : Remote) (st : FSState) (r : Entry)
    (p : List String) (nm sh : String) (sz : Option Nat) (g : Nat)
    (hroot : st.root = some r) (h : nodeAtEntry r p = some (Entry.file nm sh sz none))
    (hq : R.fileBlob p sh = Except.error ()) :
    readFile R (g + 1 + p.length + 1 + 1 + 1) st p =
      (Except.error FsError.remote,
        { st with fileFetchCount := st.fileFetchCount + 1 }) := by
  rw [readFile, lookupAsFile_file R st r p nm sh sz none false g hroot h]
  simp only [hq]

theorem lookup_map_set (es : List (String × Entry)) (part : String) (f : Entry → Entry) :
    List.lookup part (es.map (fun q => if q.1 = part then (q.1, f q.2) else q)) =
      (List.lookup part es).map f := by
  induction es with
  | nil => simp
  | cons hd tl ih =>
    obtain ⟨k, v⟩ := hd
    simp only [List.map_cons]
    by_cases hk : k = part
    · subst hk
      rw [if_pos rfl]
      simp [List.lookup_cons]
    · rw [if_neg (by simpa using hk)]
      have hbe : (part == k) = false := by
        simp only [beq_eq_false_iff_ne, ne_eq]
        exact fun hpk => hk hpk.symm
      simp [List.lookup_cons, hbe, ih]

theorem nodeAtEntry_setEntriesNode (p : List String) :
    ∀ (r : Entry) (n s : String) (q m : Option (List (String × Entry))),
      nodeAtEntry r p = some (Entry.dir n s q) →
      nodeAtEntry (setEntriesNode r p m) p = some (Entry.dir n s m) := by
  induction p with
  | nil =>
    intro r n s q m h
    simp only [nodeAtEntry, Option.some.injEq] at h
    subst h
    simp [setEntriesNode, nodeAtEntry]
  | cons part rest ih =>
    intro r n s q m h
    obtain ⟨n', s', es, c, rfl, hl, hc⟩ := nodeAtEntry_cons_eq_some h
    simp only [setEntriesNode, nodeAtEntry]
    rw [lookup_map_set es part (fun x => setEntriesNode x rest m), hl]
    exact ih c n s q m hc

theorem nodeAtEntry_setDataNode (p : List String) :
    ∀ (r : Entry) (nm sh : String) (sz : Option Nat) (dt d : Option (List Nat)),
      nodeAtEntry r p = some (Entry.file nm sh sz dt) →
      nodeAtEntry (setDataNode r p d) p = some (Entry.file nm sh sz d) := by
  induction p with
  | nil =>
    intro r nm sh sz dt d h
    simp only [nodeAtEntry, Option.some.injEq] at h
    subst h
    simp [setDataNode, nodeAtEntry]
  | cons part rest ih =>
    intro r nm sh sz dt d h
    obtain ⟨n', s', es, c, rfl, hl, hc⟩ := nodeAtEntry_cons_eq_some h
    simp only [setDataNode, nodeAtEntry]
    rw [lookup_map_set es part (fun x => setDataNode x rest d), hl]
    exact ih c nm sh sz dt d hc

/-- Modelled from the spec: the in-flight registry of the `reuseable`
request deduplicator (`util.ts`, not among the sources under verification;
spec §4.6 / §2 / §7).  `inflight` maps a canonical key — the stringified
target URI — to the identifier of the pending in-flight operation (all
callers attaching to the same identifier observe the same settled outcome,
success or failure); `nextOp` numbers operations; `fetchCount` is ghost
instrumentation counting the underlying remote fetches started. -/
structure Dedup where
  inflight : List (String × Nat)
  nextOp : Nat
  fetchCount : Nat

/-- Modelled from the spec: a call entering the deduplicator under a key.
If an identical request is already in flight, the caller attaches to the
existing in-flight operation and no new remote fetch starts; otherwise a
fresh operation starts, is registered under the key, and counts one remote
fetch. -/
def dedupCall (d : Dedup) (key : String) : Nat × Dedup :=
  match List.lookup key d.inflight with
  | some op => (op, d)
  | none =>
    (d.nextOp,
      { inflight := (key, d.nextOp) :: d.inflight,
        nextOp := d.nextOp + 1,
        fetchCount := d.fetchCount + 1 })

/-- Modelled from the spec: once the in-flight operation under a key settles
(with success or failure alike), its registry entry is cleared, so a later
call starts a fresh fetch. -/
def dedupSettle (d : Dedup) (key : String) : Dedup :=
  { d with inflight := d.inflight.filter (fun p => ¬ p.1 = key) }

/-- A small populated tree used by the concrete witnesses and
counterexamples: a text file with cached data, a binary-style file with
absent data, a populated empty directory, and an unpopulated directory. -/
def sampleRootEntries : List (String × Entry) :=
  [("a.txt", Entry.file "a.txt" "sha-a" (some 3) (some [1, 2, 3])),
   ("bin.dat", Entry.file "bin.dat" "sha-b" (some 2) none),
   ("d", Entry.dir "d" "sha-d" (some [])),
   ("u", Entry.dir "u" "sha-u" none)]

/-- Sample root directory (populated with `sampleRootEntries`). -/
def sampleRoot : Entry := Entry.dir "" "" (some sampleRootEntries)

/-- Sample filesystem state with the sample root and zeroed fetch counters. -/
def sampleState : FSState :=
  { root := some sampleRoot, dirFetchCount := 0, fileFetchCount := 0 }

/-- Sample remote oracle: deep strategy enabled, `u` resolves to an empty
subtree, the blob `sha-b` decodes to `[7, 7]`. -/
def sampleRemote : Remote :=
  { graphqlEnabled := true,
    deepQuery := fun p => if p = ["u"] then Except.ok (some []) else Except.ok none,
    shallowDir := fun _ => Except.error (),
    fileBlob := fun _ sha => if sha = "sha-b" then Except.ok [7, 7] else Except.error () }

/-- C1 (counterexample): the claim says descending through a non-directory
fails with a "not a directory" error; on the code, descending through the
`File` node `a.txt` fails with `FileNotFound`, which is a different error
than `FileNotADirectory`. -/
theorem c1_counterexample :
    lookup sampleRemote 6 sampleState ["a.txt", "b"] false =
      (Except.error FsError.fileNotFound, sampleState) ∧
    FsError.fileNotFound ≠ FsError.fileNotADirectory :=
  ⟨rfl, by decide⟩

/-- C1 (amended): during path resolution, for every path and every segment,
if the node currently reached is not a directory (it is a File) but a
further segment must be descended into, non-silent resolution fails with the
not-found error (`FileSystemError.FileNotFound`), leaving the state
unchanged. -/
theorem c1_descend_into_file_fails_not_found (R : Remote) (st : FSState)
    (r : Entry) (pre : List String) (nm sh : String) (sz : Option Nat)
    (dt : Option (List Nat)) (part : String) (rest : List String) (fuel : Nat)
    (hroot : st.root = some r)
    (h : nodeAtEntry r pre = some (Entry.file nm sh sz dt))
    (hfuel : pre.length + 2 ≤ fuel) :
    lookup R fuel st (pre ++ part :: rest) false =
      (Except.error FsError.fileNotFound, st) := by
  obtain ⟨g, rfl⟩ : ∃ g, fuel = g + 1 + pre.length + 1 :=
    ⟨fuel - (pre.length + 2), by omega⟩
  simpa using lookup_file_mid R st r pre nm sh sz dt part rest false g hroot h

/-- C1 (witness): the amended theorem applied to the sample tree. -/
theorem c1_witness :
    lookup sampleRemote 9 sampleState (["a.txt"] ++ ["b"]) false =
      (Except.error FsError.fileNotFound, sampleState) :=
  c1_descend_into_file_fails_not_found sampleRemote sampleState sampleRoot
    ["a.txt"] "a.txt" "sha-a" (some 3) (some [1, 2, 3]) "b" [] 9 rfl rfl
    (by decide)

/-- C5: under the deep strategy, a child flagged binary becomes a `File`
with absent data; a first read of a file with absent data performs exactly
one remote content fetch, stores the decoded bytes on the node, and returns
them; a non-binary child with inlined text gets the encoded text as present
data; and a read of a file with present data returns it with no remote
fetch. -/
theorem c5_binary_flag_defers_content :
    (∀ (nm oid ty : String) (oe : Option (List GqlEntry)) (obs : Option Nat)
       (ot : Option String) (uri : List String), ¬ ty = "tree" →
       gqlEntryToEntry (GqlEntry.mk nm oid ty oe obs (some true) ot) uri =
         Entry.file nm oid obs none) ∧
    (∀ (R : Remote) (st : FSState) (r : Entry) (p : List String)
       (nm sh : String) (sz : Option Nat) (bytes : List Nat) (fuel : Nat),
       st.root = some r → nodeAtEntry r p = some (Entry.file nm sh sz none) →
       R.fileBlob p sh = Except.ok bytes → p.length + 4 ≤ fuel →
       readFile R fuel st p =
         (Except.ok bytes,
          { st with root := setDataAt st.root p (some bytes),
                    fileFetchCount := st.fileFetchCount + 1 })) ∧
    (∀ (nm oid ty : String) (oe : Option (List GqlEntry)) (obs : Option Nat)
       (obi : Option Bool) (txt : String) (uri : List String),
       ¬ ty = "tree" → ¬ obi = some true →
       gqlEntryToEntry (GqlEntry.mk nm oid ty oe obs obi (some txt)) uri =
         Entry.file nm oid obs (some (textEncode (some txt)))) ∧
    (∀ (R : Remote) (st : FSState) (r : Entry) (p : List String)
       (nm sh : String) (sz : Option Nat) (d : List Nat) (fuel : Nat),
       st.root = some r → nodeAtEntry r p = some (Entry.file nm sh sz (some d)) →
       p.length + 4 ≤ fuel →
       readFile R fuel st p = (Except.ok d, st)) := by
  refine ⟨?_, ?_, ?_, ?_⟩
  · intro nm oid ty oe obs ot uri hty
    simp [gqlEntryToEntry, hty]
  · intro R st r p nm sh sz bytes fuel hroot h hq hfuel
    obtain ⟨g, rfl⟩ : ∃ g, fuel = g + 1 + p.length + 1 + 1 + 1 :=
      ⟨fuel - (p.length + 4), by omega⟩
    exact readFile_fetch_ok R st r p nm sh sz bytes g hroot h hq
  · intro nm oid ty oe obs obi txt uri hty hobi
    simp [gqlEntryToEntry, hty, hobi]
  · intro R st r p nm sh sz d fuel hroot h hfuel
    obtain ⟨g, rfl⟩ : ∃ g, fuel = g + 1 + p.length + 1 + 1 + 1 :=
      ⟨fuel - (p.length + 4), by omega⟩
    exact readFile_cached R st r p nm sh sz d g hroot h

/-- C5 (witness): the theorem applied to concrete inputs — a binary GraphQL
entry, the sample binary file `bin.dat` (absent data, fetched and stored),
and the sample cached file `a.txt`. -/
theorem c5_witness :
    gqlEntryToEntry (GqlEntry.mk "img" "oid1" "blob" none (some 9) (some true) none) [] =
      Entry.file "img" "oid1" (some 9) none ∧
    readFile sampleRemote 9 sampleState ["bin.dat"] =
      (Except.ok [7, 7],
       { sampleState with
           root := setDataAt sampleState.root ["bin.dat"] (some [7, 7]),
           fileFetchCount := sampleState.fileFetchCount + 1 }) ∧
    gqlEntryToEntry (GqlEntry.mk "t.txt" "oid2" "blob" none (some 2) (some false) (some "hi")) [] =
      Entry.file "t.txt" "oid2" (some 2) (some (textEncode (some "hi"))) ∧
    readFile sampleRemote 9 sampleState ["a.txt"] = (Except.ok [1, 2, 3], sampleState) :=
  ⟨c5_binary_flag_defers_content.1 "img" "oid1" "blob" none (some 9) none []
     (by decide),
   c5_binary_flag_defers_content.2.1 sampleRemote sampleState sampleRoot
     ["bin.dat"] "bin.dat" "sha-b" (some 2) [7, 7] 9 rfl rfl rfl (by decide),
   c5_binary_flag_defers_content.2.2.1 "t.txt" "oid2" "blob" none (some 2)
     (some false) "hi" [] (by decide) (by decide),
   c5_binary_flag_defers_content.2.2.2 sampleRemote sampleState sampleRoot
     ["a.txt"] "a.txt" "sha-a" (some 3) [1, 2, 3] 9 rfl rfl (by decide)⟩

/-- Looking a key up after filtering out every pair carrying it yields
nothing. -/
theorem lookup_filter_out (l : List (String × Nat)) (k : String) :
    List.lookup k (l.filter (fun p => ¬ p.1 = k)) = none := by
  rw [List.lookup_eq_none_iff]
  intro q hq
  have := List.of_mem_filter hq
  simp only [decide_not, Bool.not_eq_eq_eq_not, Bool.not_true,
    decide_eq_false_iff_not] at this
  simpa [bne_iff_ne] using fun hk => this hk.symm

/-- C8 (modelled from the spec, the deduplicator's source `util.ts` is not
among the sources): while a call under a key is in flight, a further call
under the same key attaches to the same in-flight operation (hence shares
its outcome) and starts no second remote fetch; once the operation settles
the registry entry is cleared, so a later call starts a fresh fetch. -/
theorem c8_dedup_single_flight (d : Dedup) (k : String)
    (h : List.lookup k d.inflight = none) :
    (dedupCall (dedupCall d k).2 k).1 = (dedupCall d k).1 ∧
    (dedupCall (dedupCall d k).2 k).2.fetchCount = d.fetchCount + 1 ∧
    List.lookup k (dedupSettle (dedupCall (dedupCall d k).2 k).2 k).inflight =
      none ∧
    (dedupCall (dedupSettle (dedupCall (dedupCall d k).2 k).2 k) k).2.fetchCount =
      d.fetchCount + 2 := by
  have e1 : dedupCall d k =
      (d.nextOp, ⟨(k, d.nextOp) :: d.inflight, d.nextOp + 1, d.fetchCount + 1⟩) := by
    simp [dedupCall, h]
  have e2 : dedupCall (⟨(k, d.nextOp) :: d.inflight, d.nextOp + 1,
      d.fetchCount + 1⟩ : Dedup) k =
      (d.nextOp, ⟨(k, d.nextOp) :: d.inflight, d.nextOp + 1, d.fetchCount + 1⟩) := by
    simp [dedupCall]
  have e3 : dedupSettle (⟨(k, d.nextOp) :: d.inflight, d.nextOp + 1,
      d.fetchCount + 1⟩ : Dedup) k =
      ⟨d.inflight.filter (fun p => ¬ p.1 = k), d.nextOp + 1, d.fetchCount + 1⟩ := by
    simp [dedupSettle]
  have e4 : List.lookup k (d.inflight.filter (fun p => ¬ p.1 = k)) = none :=
    lookup_filter_out d.inflight k
  have e5 : dedupCall (⟨d.inflight.filter (fun p => ¬ p.1 = k), d.nextOp + 1,
      d.fetchCount + 1⟩ : Dedup) k =
      (d.nextOp + 1,
        ⟨(k, d.nextOp + 1) :: d.inflight.filter (fun p => ¬ p.1 = k),
          d.nextOp + 1 + 1, d.fetchCount + 1 + 1⟩) := by
    unfold dedupCall
    rw [show (⟨d.inflight.filter (fun p => ¬ p.1 = k), d.nextOp + 1,
      d.fetchCount + 1⟩ : Dedup).inflight =
        d.inflight.filter (fun p => ¬ p.1 = k) from rfl, e4]
  refine ⟨?_, ?_, ?_, ?_⟩
  · rw [e1, e2]
  · rw [e1, e2]
  · rw [e1, e2, e3]
    exact e4
  · rw [e1, e2, e3, e5]

/-- C8 (witness): the deduplicator theorem at an empty registry and the key
"key". -/
theorem c8_witness :
    (dedupCall (dedupCall ⟨[], 0, 0⟩ "key").2 "key").1 =
      (dedupCall (⟨[], 0, 0⟩ : Dedup) "key").1 ∧
    (dedupCall (dedupCall ⟨[], 0, 0⟩ "key").2 "key").2.fetchCount = 0 + 1 ∧
    List.lookup "key"
      (dedupSettle (dedupCall (dedupCall ⟨[], 0, 0⟩ "key").2 "key").2 "key").inflight =
      none ∧
    (dedupCall (dedupSettle (dedupCall (dedupCall ⟨[], 0, 0⟩ "key").2 "key").2 "key")
      "key").2.fetchCount = 0 + 2 :=
  c8_dedup_single_flight ⟨[], 0, 0⟩ "key" rfl

/-- C9 (counterexample): the claim says a silent kind mismatch is
distinguishable from absence; on the code both give the same `undefined`
sentinel: `_lookupAsDirectory` with `silent = true` returns `undefined` both
for the existing file `a.txt` and for the absent `zzz`. -/
theorem c9_counterexample :
    nodeAtEntry sampleRoot ["a.txt"] =
      some (Entry.file "a.txt" "sha-a" (some 3) (some [1, 2, 3])) ∧
    nodeAtEntry sampleRoot ["zzz"] = none ∧
    lookupAsDirectory sampleRemote 7 sampleState ["a.txt"] true =
      (Except.ok none, sampleState) ∧
    lookupAsDirectory sampleRemote 7 sampleState ["zzz"] true =
      (Except.ok none, sampleState) :=
  ⟨rfl, rfl, rfl, rfl⟩

/-- C9 (amended): in silent mode a kind mismatch is not distinguishable from
absence: `_lookupAsDirectory` with `silent = true` on a path resolving to a
File returns the same `undefined` sentinel as for a missing path, and
`_lookupAsFile` on a path resolving to a Directory likewise. -/
theorem c9_silent_mismatch_equals_absence :
    (∀ (R : Remote) (st : FSState) (r : Entry) (p : List String)
       (nm sh : String) (sz : Option Nat) (dt : Option (List Nat)) (fuel : Nat),
       st.root = some r → nodeAtEntry r p = some (Entry.file nm sh sz dt) →
       p.length + 3 ≤ fuel →
       lookupAsDirectory R fuel st p true = (Except.ok none, st)) ∧
    (∀ (R : Remote) (st : FSState) (r : Entry) (pre : List String)
       (n s : String) (es : List (String × Entry)) (part : String)
       (rest : List String) (fuel : Nat),
       st.root = some r → nodeAtEntry r pre = some (Entry.dir n s (some es)) →
       List.lookup part es = none → pre.length + 3 ≤ fuel →
       lookupAsDirectory R fuel st (pre ++ part :: rest) true =
         (Except.ok none, st)) ∧
    (∀ (R : Remote) (st : FSState) (r : Entry) (p : List String) (n s : String)
       (q : Option (List (String × Entry))) (fuel : Nat),
       st.root = some r → nodeAtEntry r p = some (Entry.dir n s q) →
       p.length + 3 ≤ fuel →
       lookupAsFile R fuel st p true = (Except.ok none, st)) ∧
    (∀ (R : Remote) (st : FSState) (r : Entry) (pre : List String)
       (n s : String) (es : List (String × Entry)) (part : String)
       (rest : List String) (fuel : Nat),
       st.root = some r → nodeAtEntry r pre = some (Entry.dir n s (some es)) →
       List.lookup part es = none → pre.length + 3 ≤ fuel →
       lookupAsFile R fuel st (pre ++ part :: rest) true =
         (Except.ok none, st)) := by
  refine ⟨?_, ?_, ?_, ?_⟩
  · intro R st r p nm sh sz dt fuel hroot h hfuel
    obtain ⟨g, rfl⟩ : ∃ g, fuel = g + 1 + p.length + 1 + 1 :=
      ⟨fuel - (p.length + 3), by omega⟩
    exact lookupAsDirectory_silent_file R st r p nm sh sz dt g hroot h
  · intro R st r pre n s es part rest fuel hroot h hl hfuel
    obtain ⟨g, rfl⟩ : ∃ g, fuel = g + 1 + pre.length + 1 + 1 :=
      ⟨fuel - (pre.length + 3), by omega⟩
    exact lookupAsDirectory_silent_missing R st r pre n s es part rest g hroot h hl
  · intro R st r p n s q fuel hroot h hfuel
    obtain ⟨g, rfl⟩ : ∃ g, fuel = g + 1 + p.length + 1 + 1 :=
      ⟨fuel - (p.length + 3), by omega⟩
    exact lookupAsFile_silent_dir R st r p n s q g hroot h
  · intro R st r pre n s es part rest fuel hroot h hl hfuel
    obtain ⟨g, rfl⟩ : ∃ g, fuel = g + 1 + pre.length + 1 + 1 :=
      ⟨fuel - (pre.length + 3), by omega⟩
    exact lookupAsFile_silent_missing R st r pre n s es part rest g hroot h hl

/-- C9 (witness): the amended theorem applied to the sample tree (file
`a.txt`, directory `d`, and the missing name `zzz`). -/
theorem c9_witness :
    lookupAsDirectory sampleRemote 7 sampleState ["a.txt"] true =
      (Except.ok none, sampleState) ∧
    lookupAsDirectory sampleRemote 7 sampleState ([] ++ "zzz" :: []) true =
      (Except.ok none, sampleState) ∧
    lookupAsFile sampleRemote 7 sampleState ["d"] true =
      (Except.ok none, sampleState) ∧
    lookupAsFile sampleRemote 7 sampleState ([] ++ "zzz" :: []) true =
      (Except.ok none, sampleState) :=
  ⟨c9_silent_mismatch_equals_absence.1 sampleRemote sampleState sampleRoot
     ["a.txt"] "a.txt" "sha-a" (some 3) (some [1, 2, 3]) 7 rfl rfl (by decide),
   c9_silent_mismatch_equals_absence.2.1 sampleRemote sampleState sampleRoot
     [] "" "" sampleRootEntries "zzz" [] 7 rfl rfl rfl (by decide),
   c9_silent_mismatch_equals_absence.2.2.1 sampleRemote sampleState sampleRoot
     ["d"] "d" "sha-d" (some []) 7 rfl rfl (by decide),
   c9_silent_mismatch_equals_absence.2.2.2 sampleRemote sampleState sampleRoot
     [] "" "" sampleRootEntries "zzz" [] 7 rfl rfl rfl (by decide)⟩

/-- C10: under the deep strategy, every non-directory child not flagged
binary gets a present data buffer — the encoded inlined text, or the empty
buffer when no text object is inlined — never null; and every read of a
file with present data returns that buffer with no remote content fetch. -/
theorem c10_nonbinary_content_always_present :
    (∀ (nm oid ty : String) (oe : Option (List GqlEntry)) (obs : Option Nat)
       (obi : Option Bool) (ot : Option String) (uri : List String),
       ¬ ty = "tree" → ¬ obi = some true →
       gqlEntryToEntry (GqlEntry.mk nm oid ty oe obs obi ot) uri =
         Entry.file nm oid obs (some (textEncode ot))) ∧
    textEncode none = [] ∧
    (∀ (R : Remote) (st : FSState) (r : Entry) (p : List String)
       (nm sh : String) (sz : Option Nat) (d : List Nat) (fuel : Nat),
       st.root = some r → nodeAtEntry r p = some (Entry.file nm sh sz (some d)) →
       p.length + 4 ≤ fuel →
       readFile R fuel st p = (Except.ok d, st)) := by
  refine ⟨?_, rfl, ?_⟩
  · intro nm oid ty oe obs obi ot uri hty hobi
    simp [gqlEntryToEntry, hty, hobi]
  · intro R st r p nm sh sz d fuel hroot h hfuel
    obtain ⟨g, rfl⟩ : ∃ g, fuel = g + 1 + p.length + 1 + 1 + 1 :=
      ⟨fuel - (p.length + 4), by omega⟩
    exact readFile_cached R st r p nm sh sz d g hroot h

/-- C10 (witness): a non-binary entry without an inlined text object gets
the empty buffer, and reading the cached sample file returns its buffer
with the state (so also the fetch counters) unchanged. -/
theorem c10_witness :
    gqlEntryToEntry (GqlEntry.mk "e.txt" "oid3" "blob" none none (some false) none) [] =
      Entry.file "e.txt" "oid3" none (some []) ∧
    readFile sampleRemote 9 sampleState ["a.txt"] = (Except.ok [1, 2, 3], sampleState) :=
  ⟨by
     have h := c10_nonbinary_content_always_present.1 "e.txt" "oid3" "blob"
       none none (some false) none [] (by decide) (by decide)
     simpa using h,
   c10_nonbinary_content_always_present.2.2 sampleRemote sampleState sampleRoot
     ["a.txt"] "a.txt" "sha-a" (some 3) [1, 2, 3] 9 rfl rfl (by decide)⟩

/-- An unrooted filesystem state (fresh provider instance). -/
def emptyState : FSState := { root := none, dirFetchCount := 0, fileFetchCount := 0 }

/-- A remote whose deep query always rejects (transport failure). -/
def failRemote : Remote :=
  { graphqlEnabled := true,
    deepQuery := fun _ => Except.error (),
    shallowDir := fun _ => Except.error (),
    fileBlob := fun _ _ => Except.error () }

/-- A remote under the shallow strategy whose listing always rejects. -/
def failShallowRemote : Remote :=
  { graphqlEnabled := false,
    deepQuery := fun _ => Except.error (),
    shallowDir := fun _ => Except.error (),
    fileBlob := fun _ _ => Except.error () }

/-- A remote whose deep query responds without an entries object. -/
def deepNoneRemote : Remote :=
  { graphqlEnabled := true,
    deepQuery := fun _ => Except.ok none,
    shallowDir := fun _ => Except.error (),
    fileBlob := fun _ _ => Except.error () }

/-- C2: a Directory whose entries mapping is present (including
present-but-empty) is never re-populated: `readDirectory` returns the
cached name/type pairs with the state (hence the fetch counter) unchanged;
`_lookup` passing through populated directories triggers no population (the
state is unchanged); and listing the same empty directory twice performs
exactly one remote fetch (the first call bumps the counter once and stores
the empty mapping, the second returns it with the state unchanged). -/
theorem c2_populated_directory_never_repopulated :
    (∀ (R : Remote) (st : FSState) (r : Entry) (p : List String) (n s : String)
       (es : List (String × Entry)) (fuel : Nat),
       st.root = some r → nodeAtEntry r p = some (Entry.dir n s (some es)) →
       p.length + 4 ≤ fuel →
       readDirectory R fuel st p = (Except.ok (getNameTypePairs (some es)), st)) ∧
    (∀ (R : Remote) (st : FSState) (r e : Entry) (p : List String)
       (silent : Bool) (fuel : Nat),
       st.root = some r → nodeAtEntry r p = some e → p.length + 2 ≤ fuel →
       lookup R fuel st p silent = (Except.ok (some e), st)) ∧
    (∀ (R : Remote) (st : FSState) (r : Entry) (p : List String) (n s : String)
       (fuel fuel' : Nat),
       st.root = some r → nodeAtEntry r p = some (Entry.dir n s none) →
       R.graphqlEnabled = true → R.deepQuery p = Except.ok (some []) →
       p.length + 4 ≤ fuel → p.length + 4 ≤ fuel' →
       readDirectory R fuel st p =
         (Except.ok [],
          { st with root := setEntriesAt st.root p (some []),
                    dirFetchCount := st.dirFetchCount + 1 }) ∧
       readDirectory R fuel'
           { st with root := setEntriesAt st.root p (some []),
                     dirFetchCount := st.dirFetchCount + 1 } p =
         (Except.ok [],
          { st with root := setEntriesAt st.root p (some []),
                    dirFetchCount := st.dirFetchCount + 1 })) := by
  refine ⟨?_, ?_, ?_⟩
  · intro R st r p n s es fuel hroot h hfuel
    obtain ⟨g, rfl⟩ : ∃ g, fuel = g + 1 + p.length + 1 + 1 + 1 :=
      ⟨fuel - (p.length + 4), by omega⟩
    exact readDirectory_cached R st r p n s es g hroot h
  · intro R st r e p silent fuel hroot h hfuel
    obtain ⟨g, rfl⟩ : ∃ g, fuel = g + 1 + p.length + 1 :=
      ⟨fuel - (p.length + 2), by omega⟩
    exact lookup_populated R st r e p silent g hroot h
  · intro R st r p n s fuel fuel' hroot h hgql hq hfuel hfuel'
    obtain ⟨g, rfl⟩ : ∃ g, fuel = g + 1 + p.length + 1 + 1 + 1 :=
      ⟨fuel - (p.length + 4), by omega⟩
    obtain ⟨g', rfl⟩ : ∃ g', fuel' = g' + 1 + p.length + 1 + 1 + 1 :=
      ⟨fuel' - (p.length + 4), by omega⟩
    have hfirst := readDirectory_deep_ok R st r p n s [] g hroot h hgql hq
    have hroot1 :
        ({ st with root := setEntriesAt st.root p (some []),
                   dirFetchCount := st.dirFetchCount + 1 } : FSState).root =
          some (setEntriesNode r p (some [])) := by
      show setEntriesAt st.root p (some []) = _
      rw [hroot]
      rfl
    have hnode1 : nodeAtEntry (setEntriesNode r p (some [])) p =
        some (Entry.dir n s (some [])) :=
      nodeAtEntry_setEntriesNode p r n s none (some []) h
    have hsecond := readDirectory_cached R
      { st with root := setEntriesAt st.root p (some []),
                dirFetchCount := st.dirFetchCount + 1 }
      (setEntriesNode r p (some [])) p n s [] g' hroot1 hnode1
    exact ⟨hfirst, hsecond⟩

/-- C2 (witness): the theorem applied to the sample tree — the populated
empty directory `d` is listed from cache with the state unchanged, `a.txt`
resolves without any state change, and the unpopulated directory `u` is
listed twice with exactly one deep fetch. -/
theorem c2_witness :
    readDirectory sampleRemote 9 sampleState ["d"] =
      (Except.ok [], sampleState) ∧
    lookup sampleRemote 9 sampleState ["a.txt"] false =
      (Except.ok (some (Entry.file "a.txt" "sha-a" (some 3) (some [1, 2, 3]))),
        sampleState) ∧
    (readDirectory sampleRemote 9 sampleState ["u"] =
      (Except.ok [],
       { sampleState with
           root := setEntriesAt sampleState.root ["u"] (some []),
           dirFetchCount := sampleState.dirFetchCount + 1 }) ∧
     readDirectory sampleRemote 9
         { sampleState with
             root := setEntriesAt sampleState.root ["u"] (some []),
             dirFetchCount := sampleState.dirFetchCount + 1 } ["u"] =
       (Except.ok [],
        { sampleState with
            root := setEntriesAt sampleState.root ["u"] (some []),
            dirFetchCount := sampleState.dirFetchCount + 1 })) :=
  ⟨c2_populated_directory_never_repopulated.1 sampleRemote sampleState
     sampleRoot ["d"] "d" "sha-d" [] 9 rfl rfl (by decide),
   c2_populated_directory_never_repopulated.2.1 sampleRemote sampleState
     sampleRoot (Entry.file "a.txt" "sha-a" (some 3) (some [1, 2, 3]))
     ["a.txt"] false 9 rfl rfl (by decide),
   c2_populated_directory_never_repopulated.2.2 sampleRemote sampleState
     sampleRoot ["u"] "u" "sha-u" 9 9 rfl rfl rfl rfl (by decide) (by decide)⟩

/-- C3: a File whose data buffer is present (including empty) is returned
by `readFile` with the state (hence the content-fetch counter) unchanged;
when the data is absent, `readFile` performs one remote fetch, stores the
decoded bytes on the node, and returns them; reading the same file again
returns the stored bytes with the state unchanged, so two reads cost at
most one remote content fetch. -/
theorem c3_file_content_fetched_once :
    (∀ (R : Remote) (st : FSState) (r : Entry) (p : List String)
       (nm sh : String) (sz : Option Nat) (d : List Nat) (fuel : Nat),
       st.root = some r → nodeAtEntry r p = some (Entry.file nm sh sz (some d)) →
       p.length + 4 ≤ fuel →
       readFile R fuel st p = (Except.ok d, st)) ∧
    (∀ (R : Remote) (st : FSState) (r : Entry) (p : List String)
       (nm sh : String) (sz : Option Nat) (bytes : List Nat) (fuel fuel' : Nat),
       st.root = some r → nodeAtEntry r p = some (Entry.file nm sh sz none) →
       R.fileBlob p sh = Except.ok bytes →
       p.length + 4 ≤ fuel → p.length + 4 ≤ fuel' →
       readFile R fuel st p =
         (Except.ok bytes,
          { st with root := setDataAt st.root p (some bytes),
                    fileFetchCount := st.fileFetchCount + 1 }) ∧
       readFile R fuel'
           { st with root := setDataAt st.root p (some bytes),
                     fileFetchCount := st.fileFetchCount + 1 } p =
         (Except.ok bytes,
          { st with root := setDataAt st.root p (some bytes),
                    fileFetchCount := st.fileFetchCount + 1 })) := by
  refine ⟨?_, ?_⟩
  · intro R st r p nm sh sz d fuel hroot h hfuel
    obtain ⟨g, rfl⟩ : ∃ g, fuel = g + 1 + p.length + 1 + 1 + 1 :=
      ⟨fuel - (p.length + 4), by omega⟩
    exact readFile_cached R st r p nm sh sz d g hroot h
  · intro R st r p nm sh sz bytes fuel fuel' hroot h hq hfuel hfuel'
    obtain ⟨g, rfl⟩ : ∃ g, fuel = g + 1 + p.length + 1 + 1 + 1 :=
      ⟨fuel - (p.length + 4), by omega⟩
    obtain ⟨g', rfl⟩ : ∃ g', fuel' = g' + 1 + p.length + 1 + 1 + 1 :=
      ⟨fuel' - (p.length + 4), by omega⟩
    have hfirst := readFile_fetch_ok R st r p nm sh sz bytes g hroot h hq
    have hroot1 :
        ({ st with root := setDataAt st.root p (some bytes),
                   fileFetchCount := st.fileFetchCount + 1 } : FSState).root =
          some (setDataNode r p (some bytes)) := by
      show setDataAt st.root p (some bytes) = _
      rw [hroot]
      rfl
    have hnode1 : nodeAtEntry (setDataNode r p (some bytes)) p =
        some (Entry.file nm sh sz (some bytes)) :=
      nodeAtEntry_setDataNode p r nm sh sz none (some bytes) h
    have hsecond := readFile_cached R
      { st with root := setDataAt st.root p (some bytes),
                fileFetchCount := st.fileFetchCount + 1 }
      (setDataNode r p (some bytes)) p nm sh sz bytes g' hroot1 hnode1
    exact ⟨hfirst, hsecond⟩

/-- C3 (witness): reading the cached `a.txt` changes nothing; reading the
unfetched `bin.dat` twice fetches once, stores `[7, 7]`, and the second
read returns the stored bytes with no further fetch. -/
theorem c3_witness :
    readFile sampleRemote 9 sampleState ["a.txt"] =
      (Except.ok [1, 2, 3], sampleState) ∧
    (readFile sampleRemote 9 sampleState ["bin.dat"] =
      (Except.ok [7, 7],
       { sampleState with
           root := setDataAt sampleState.root ["bin.dat"] (some [7, 7]),
           fileFetchCount := sampleState.fileFetchCount + 1 }) ∧
     readFile sampleRemote 9
         { sampleState with
             root := setDataAt sampleState.root ["bin.dat"] (some [7, 7]),
             fileFetchCount := sampleState.fileFetchCount + 1 } ["bin.dat"] =
       (Except.ok [7, 7],
        { sampleState with
            root := setDataAt sampleState.root ["bin.dat"] (some [7, 7]),
            fileFetchCount := sampleState.fileFetchCount + 1 })) :=
  ⟨c3_file_content_fetched_once.1 sampleRemote sampleState sampleRoot
     ["a.txt"] "a.txt" "sha-a" (some 3) [1, 2, 3] 9 rfl rfl (by decide),
   c3_file_content_fetched_once.2 sampleRemote sampleState sampleRoot
     ["bin.dat"] "bin.dat" "sha-b" (some 2) [7, 7] 9 9 rfl rfl rfl
     (by decide) (by decide)⟩

/-- C4: every failing population attempt (deep transport failure, deep
response without entries, shallow transport failure) and every failing
content fetch returns the error with the tree unchanged (the directory's
entries stay null, the file's data stays null; only the ghost counter
advances), and a later call against a now-working remote re-attempts the
fetch and succeeds instead of observing a cached failure. -/
theorem c4_failures_leave_nodes_unpopulated :
    (∀ (R : Remote) (st : FSState) (r : Entry) (p : List String) (n s : String)
       (fuel : Nat),
       st.root = some r → nodeAtEntry r p = some (Entry.dir n s none) →
       R.graphqlEnabled = true → R.deepQuery p = Except.error () →
       p.length + 4 ≤ fuel →
       readDirectory R fuel st p =
         (Except.error FsError.remote,
          { st with dirFetchCount := st.dirFetchCount + 1 })) ∧
    (∀ (R : Remote) (st : FSState) (r : Entry) (p : List String) (n s : String)
       (fuel : Nat),
       st.root = some r → nodeAtEntry r p = some (Entry.dir n s none) →
       R.graphqlEnabled = true → R.deepQuery p = Except.ok none →
       p.length + 4 ≤ fuel →
       readDirectory R fuel st p =
         (Except.error FsError.fileNotADirectory,
          { st with dirFetchCount := st.dirFetchCount + 1 })) ∧
    (∀ (R : Remote) (st : FSState) (r : Entry) (p : List String) (n s : String)
       (fuel : Nat),
       st.root = some r → nodeAtEntry r p = some (Entry.dir n s none) →
       R.graphqlEnabled = false → R.shallowDir p = Except.error () →
       p.length + 4 ≤ fuel →
       readDirectory R fuel st p =
         (Except.error FsError.remote,
          { st with dirFetchCount := st.dirFetchCount + 1 })) ∧
    (∀ (R : Remote) (st : FSState) (r : Entry) (p : List String)
       (nm sh : String) (sz : Option Nat) (fuel : Nat),
       st.root = some r → nodeAtEntry r p = some (Entry.file nm sh sz none) →
       R.fileBlob p sh = Except.error () → p.length + 4 ≤ fuel →
       readFile R fuel st p =
         (Except.error FsError.remote,
          { st with fileFetchCount := st.fileFetchCount + 1 })) ∧
    (∀ (R R' : Remote) (st : FSState) (r : Entry) (p : List String)
       (n s : String) (ges : List GqlEntry) (fuel fuel' : Nat),
       st.root = some r → nodeAtEntry r p = some (Entry.dir n s none) →
       R.graphqlEnabled = true → R.deepQuery p = Except.error () →
       R'.graphqlEnabled = true → R'.deepQuery p = Except.ok (some ges) →
       p.length + 4 ≤ fuel → p.length + 4 ≤ fuel' →
       readDirectory R fuel st p =
         (Except.error FsError.remote,
          { st with dirFetchCount := st.dirFetchCount + 1 }) ∧
       readDirectory R' fuel'
           { st with dirFetchCount := st.dirFetchCount + 1 } p =
         (Except.ok (getNameTypePairs (entriesToMap (some ges) p)),
          { st with
              root := setEntriesAt st.root p (entriesToMap (some ges) p),
              dirFetchCount := st.dirFetchCount + 1 + 1 })) := by
  refine ⟨?_, ?_, ?_, ?_, ?_⟩
  · intro R st r p n s fuel hroot h hgql hq hfuel
    obtain ⟨g, rfl⟩ : ∃ g, fuel = g + 1 + p.length + 1 + 1 + 1 :=
      ⟨fuel - (p.length + 4), by omega⟩
    exact readDirectory_deep_err R st r p n s g hroot h hgql hq
  · intro R st r p n s fuel hroot h hgql hq hfuel
    obtain ⟨g, rfl⟩ : ∃ g, fuel = g + 1 + p.length + 1 + 1 + 1 :=
      ⟨fuel - (p.length + 4), by omega⟩
    exact readDirectory_deep_none R st r p n s g hroot h hgql hq
  · intro R st r p n s fuel hroot h hgql hq hfuel
    obtain ⟨g, rfl⟩ : ∃ g, fuel = g + 1 + p.length + 1 + 1 + 1 :=
      ⟨fuel - (p.length + 4), by omega⟩
    exact readDirectory_shallow_err R st r p n s g hroot h hgql hq
  · intro R st r p nm sh sz fuel hroot h hq hfuel
    obtain ⟨g, rfl⟩ : ∃ g, fuel = g + 1 + p.length + 1 + 1 + 1 :=
      ⟨fuel - (p.length + 4), by omega⟩
    exact readFile_fetch_err R st r p nm sh sz g hroot h hq
  · intro R R' st r p n s ges fuel fuel' hroot h hgql hq hgql' hq' hfuel hfuel'
    obtain ⟨g, rfl⟩ : ∃ g, fuel = g + 1 + p.length + 1 + 1 + 1 :=
      ⟨fuel - (p.length + 4), by omega⟩
    obtain ⟨g', rfl⟩ : ∃ g', fuel' = g' + 1 + p.length + 1 + 1 + 1 :=
      ⟨fuel' - (p.length + 4), by omega⟩
    refine ⟨readDirectory_deep_err R st r p n s g hroot h hgql hq, ?_⟩
    have hroot1 :
        ({ st with dirFetchCount := st.dirFetchCount + 1 } : FSState).root =
          some r := hroot
    exact readDirectory_deep_ok R'
      { st with dirFetchCount := st.dirFetchCount + 1 } r p n s ges g'
      hroot1 h hgql' hq'

/-- C4 (witness): against the sample tree's unpopulated directory `u` and
unfetched file `bin.dat`: deep transport failure, deep no-entries response,
shallow transport failure, and content-fetch failure each return an error
with the tree unchanged, and after a deep failure a retry against the
working remote populates `u`. -/
theorem c4_witness :
    readDirectory failRemote 9 sampleState ["u"] =
      (Except.error FsError.remote,
       { sampleState with dirFetchCount := sampleState.dirFetchCount + 1 }) ∧
    readDirectory deepNoneRemote 9 sampleState ["u"] =
      (Except.error FsError.fileNotADirectory,
       { sampleState with dirFetchCount := sampleState.dirFetchCount + 1 }) ∧
    readDirectory failShallowRemote 9 sampleState ["u"] =
      (Except.error FsError.remote,
       { sampleState with dirFetchCount := sampleState.dirFetchCount + 1 }) ∧
    readFile failRemote 9 sampleState ["bin.dat"] =
      (Except.error FsError.remote,
       { sampleState with fileFetchCount := sampleState.fileFetchCount + 1 }) ∧
    (readDirectory failRemote 9 sampleState ["u"] =
      (Except.error FsError.remote,
       { sampleState with dirFetchCount := sampleState.dirFetchCount + 1 }) ∧
     readDirectory sampleRemote 9
         { sampleState with dirFetchCount := sampleState.dirFetchCount + 1 }
         ["u"] =
       (Except.ok (getNameTypePairs (entriesToMap (some []) ["u"])),
        { sampleState with
            root := setEntriesAt sampleState.root ["u"] (entriesToMap (some []) ["u"]),
            dirFetchCount := sampleState.dirFetchCount + 1 + 1 })) :=
  ⟨c4_failures_leave_nodes_unpopulated.1 failRemote sampleState sampleRoot
     ["u"] "u" "sha-u" 9 rfl rfl rfl rfl (by decide),
   c4_failures_leave_nodes_unpopulated.2.1 deepNoneRemote sampleState
     sampleRoot ["u"] "u" "sha-u" 9 rfl rfl rfl rfl (by decide),
   c4_failures_leave_nodes_unpopulated.2.2.1 failShallowRemote sampleState
     sampleRoot ["u"] "u" "sha-u" 9 rfl rfl rfl rfl (by decide),
   c4_failures_leave_nodes_unpopulated.2.2.2.1 failRemote sampleState
     sampleRoot ["bin.dat"] "bin.dat" "sha-b" (some 2) 9 rfl rfl rfl
     (by decide),
   c4_failures_leave_nodes_unpopulated.2.2.2.2 failRemote sampleRemote
     sampleState sampleRoot ["u"] "u" "sha-u" [] 9 9 rfl rfl rfl rfl rfl rfl
     (by decide) (by decide)⟩

/-- C6: for every path in a populated tree, `_lookup` returns the node
reached by following each `/`-separated non-empty segment exactly once from
the root (`nodeAtEntry` over `pathSegments`), with the state unchanged; and
for the empty path (no non-empty segments) on a fresh instance it creates
the root directory and returns it. -/
theorem c6_resolution_follows_segments :
    (∀ (R : Remote) (st : FSState) (r e : Entry) (s : String) (silent : Bool)
       (fuel : Nat),
       st.root = some r → nodeAtEntry r (pathSegments s) = some e →
       (pathSegments s).length + 2 ≤ fuel →
       lookupPath R fuel st s silent = (Except.ok (some e), st)) ∧
    (∀ (R : Remote) (st : FSState) (silent : Bool) (fuel : Nat),
       st.root = none → 2 ≤ fuel →
       lookupPath R fuel st "" silent =
         (Except.ok (some (Entry.dir "" "" none)),
          { st with root := some (Entry.dir "" "" none) })) := by
  refine ⟨?_, ?_⟩
  · intro R st r e s silent fuel hroot h hfuel
    obtain ⟨g, rfl⟩ : ∃ g, fuel = g + 1 + (pathSegments s).length + 1 :=
      ⟨fuel - ((pathSegments s).length + 2), by omega⟩
    exact lookup_populated R st r e (pathSegments s) silent g hroot h
  · intro R st silent fuel hroot hfuel
    obtain ⟨g, rfl⟩ : ∃ g, fuel = g + 1 + 1 := ⟨fuel - 2, by omega⟩
    show lookup R (g + 1 + 1) st [] silent = _
    rw [lookup]
    simp only [hroot]
    rw [lookupGo]
    simp [nodeAt, nodeAtEntry]

/-- C6 (witness): `/a.txt` resolves to the cached file by following its one
segment, and the empty path on a fresh instance creates and returns the
root. -/
theorem c6_witness :
    lookupPath sampleRemote 9 sampleState "/a.txt" false =
      (Except.ok (some (Entry.file "a.txt" "sha-a" (some 3) (some [1, 2, 3]))),
        sampleState) ∧
    lookupPath sampleRemote 5 emptyState "" false =
      (Except.ok (some (Entry.dir "" "" none)),
       { emptyState with root := some (Entry.dir "" "" none) }) :=
  ⟨c6_resolution_follows_segments.1 sampleRemote sampleState sampleRoot
     (Entry.file "a.txt" "sha-a" (some 3) (some [1, 2, 3])) "/a.txt" false 9
     rfl rfl (by decide),
   c6_resolution_follows_segments.2 sampleRemote emptyState false 5 rfl
     (by decide)⟩

/-- C7: when the next segment is absent from the populated children of the
directory reached so far, `_lookup` with `silent = false` fails with the
not-found error and with `silent = true` returns the `undefined` sentinel,
in both cases leaving the state unchanged. -/
theorem c7_missing_segment_not_found_or_sentinel :
    (∀ (R : Remote) (st : FSState) (r : Entry) (pre : List String)
       (n s : String) (es : List (String × Entry)) (part : String)
       (rest : List String) (fuel : Nat),
       st.root = some r → nodeAtEntry r pre = some (Entry.dir n s (some es)) →
       List.lookup part es = none → pre.length + 2 ≤ fuel →
       lookup R fuel st (pre ++ part :: rest) false =
         (Except.error FsError.fileNotFound, st)) ∧
    (∀ (R : Remote) (st : FSState) (r : Entry) (pre : List String)
       (n s : String) (es : List (String × Entry)) (part : String)
       (rest : List String) (fuel : Nat),
       st.root = some r → nodeAtEntry r pre = some (Entry.dir n s (some es)) →
       List.lookup part es = none → pre.length + 2 ≤ fuel →
       lookup R fuel st (pre ++ part :: rest) true = (Except.ok none, st)) := by
  refine ⟨?_, ?_⟩
  · intro R st r pre n s es part rest fuel hroot h hl hfuel
    obtain ⟨g, rfl⟩ : ∃ g, fuel = g + 1 + pre.length + 1 :=
      ⟨fuel - (pre.length + 2), by omega⟩
    simpa using lookup_missing R st r pre n s es part rest false g hroot h hl
  · intro R st r pre n s es part rest fuel hroot h hl hfuel
    obtain ⟨g, rfl⟩ : ∃ g, fuel = g + 1 + pre.length + 1 :=
      ⟨fuel - (pre.length + 2), by omega⟩
    simpa using lookup_missing R st r pre n s es part rest true g hroot h hl

/-- C7 (witness): the missing name `zzz` under the populated sample root
gives `FileNotFound` when not silent and the `undefined` sentinel when
silent. -/
theorem c7_witness :
    lookup sampleRemote 9 sampleState ([] ++ "zzz" :: []) false =
      (Except.error FsError.fileNotFound, sampleState) ∧
    lookup sampleRemote 9 sampleState ([] ++ "zzz" :: []) true =
      (Except.ok none, sampleState) :=
  ⟨c7_missing_segment_not_found_or_sentinel.1 sampleRemote sampleState
     sampleRoot [] "" "" sampleRootEntries "zzz" [] 9 rfl rfl rfl (by decide),
   c7_missing_segment_not_found_or_sentinel.2 sampleRemote sampleState
     sampleRoot [] "" "" sampleRootEntries "zzz" [] 9 rfl rfl rfl (by decide)⟩

end Github1s
